import Mathlib

/-!
Verification of the crawl-and-extract pipeline in `scraperV2.py` (with the
recursive variant `scraper.py` and the screenshot utility `sc.py`).

The HTTP layer, the HTML parser (BeautifulSoup) and the rendering engine
(Playwright) are external capabilities; following the spec they are modelled
as inputs: a fetch oracle `String → Option String` (`none` models a caught
fetch exception, mirroring `fetch` returning `None`), a parse oracle
`String → Doc` producing the queryable document, and an anchor oracle
`String → List String` giving the `href` attributes of the `<a href=...>`
elements of a page in document order.  Everything downstream of those
oracles is translated directly from the Python source.
-/

/-- Python truthiness of a `str`-or-`None` value: `None` and `""` are falsy. -/
def pyTruthyStr : Option String → Bool
  | none => false
  | some s => s ≠ ""

/-- Python `a or b` on `str`-or-`None` values: `a` if truthy, else `b`. -/
def pyOr (a b : Option String) : Option String :=
  if pyTruthyStr a then a else b

/-- Python `s.strip()`: drop leading and trailing whitespace characters. -/
def pyStrip (s : String) : String :=
  ⟨((s.data.dropWhile Char.isWhitespace).reverse.dropWhile Char.isWhitespace).reverse⟩

/-- Model of a Python value stored in a scrape-result dict. -/
inductive PyVal where
  | vstr : String → PyVal
  | vdict : List (String × String) → PyVal
  | vlist : List String → PyVal
deriving DecidableEq, Repr

/-- Model of a Python dict with string keys (insertion order preserved). -/
abbrev PyDict := List (String × PyVal)

/-- Python `d.get(k, default)`. -/
def dget (d : PyDict) (k : String) (dflt : PyVal) : PyVal :=
  match d.lookup k with
  | some v => v
  | none => dflt

/-- Python `d[k] = v` on a string-to-string dict: overwrite in place if the
key is bound, else append (last-seen value wins, insertion order kept). -/
def dictSet (d : List (String × String)) (k v : String) : List (String × String) :=
  if d.any (fun p => p.1 == k) then
    d.map (fun p => if p.1 == k then (k, v) else p)
  else d ++ [(k, v)]

/-- Model of a `<meta>` element: its `name`, `property` and `content`
attributes, each possibly absent. -/
structure MetaTag where
  name : Option String
  property : Option String
  content : Option String
deriving DecidableEq, Repr

/-- Model of a heading element `<h1>`..`<h6>`: its level and the result of
`get_text(strip=True)`. -/
structure HeadingTag where
  level : Nat
  text : String
deriving DecidableEq, Repr

/-- Model of a parsed document (the BeautifulSoup view of the HTML):
`titleString` is `soup.title.string` when a title element with a string is
present; `metas` and `headings` list the relevant elements in document
order; `bodyText` is `body.get_text(separator newline, strip)` when a body
element exists; `fullText` is `soup.get_text` of the whole document. -/
structure Doc where
  titleString : Option String
  metas : List MetaTag
  headings : List HeadingTag
  bodyText : Option String
  fullText : String
deriving DecidableEq, Repr

/-- Title extraction in `scrape_url`:
`soup.title.string.strip() if soup.title and soup.title.string else ""`. -/
def scrape_title (d : Doc) : String :=
  if pyTruthyStr d.titleString then pyStrip (d.titleString.getD "") else ""

/-- Meta extraction loop of `scrape_url`: for each meta element,
`key = meta.get("name") or meta.get("property")`; if `key` is truthy, bind
`key` to `meta.get("content", "").strip()` in the dict. -/
def scrape_meta (metas : List MetaTag) : List (String × String) :=
  metas.foldl
    (fun acc m =>
      let key := pyOr m.name m.property
      if pyTruthyStr key then
        dictSet acc (key.getD "") (pyStrip (m.content.getD ""))
      else acc)
    []

/-- Model of `soup.find_all("h{level}")`: the headings of that level in
document order. -/
def find_all_h (d : Doc) (lvl : Nat) : List HeadingTag :=
  d.headings.filter (fun h => h.level == lvl)

/-- Heading extraction loop of `scrape_url`: `for level in range(1, 7)`,
`for header in soup.find_all(h level)`, append `header.get_text(strip=True)`
when non-empty. -/
def scrape_headings (d : Doc) : List String :=
  [1, 2, 3, 4, 5, 6].foldl
    (fun acc lvl =>
      (find_all_h d lvl).foldl
        (fun acc2 h => if h.text ≠ "" then acc2 ++ [h.text] else acc2)
        acc)
    []

/-- Content extraction of `scrape_url`: body text when a body element
exists, else the text of the whole document. -/
def scrape_content (d : Doc) : String :=
  match d.bodyText with
  | some t => t
  | none => d.fullText

/-- The pure part of `scrape_url` after parsing: builds the result dict with
keys `title`, `meta`, `headings`, `content` (in that insertion order). -/
def extract (d : Doc) : PyDict :=
  [("title", .vstr (scrape_title d)),
   ("meta", .vdict (scrape_meta d.metas)),
   ("headings", .vlist (scrape_headings d)),
   ("content", .vstr (scrape_content d))]

/-- Model of `scrape_url`: `html = await fetch(url)`; `if not html: return
empty dict`; else parse and extract. -/
def scrape_url (fetchRes : Option String) (parse : String → Doc) : PyDict :=
  if pyTruthyStr fetchRes then extract (parse (fetchRes.getD "")) else []

/-- Python `set.add`, modelled on an insertion-ordered duplicate-free list. -/
def setAdd (s : List String) (x : String) : List String :=
  if x ∈ s then s else s ++ [x]

/-- Model of `map_url`: returns `none` (Python `None`) when the fetched html
is falsy, else the set of `f-string` concatenations `url ++ href` over the
anchor elements of the page.  Note the source concatenates; it does not call
`urljoin`. -/
def map_url (fetchRes : Option String) (anchors : String → List String)
    (url : String) : Option (List String) :=
  if pyTruthyStr fetchRes then
    some ((anchors (fetchRes.getD "")).foldl (fun s href => setAdd s (url ++ href)) [])
  else none

/-- The collection loop of `map_urls`: `for result in results: for url in
result: mapped_urls.add(url)`.  Iterating over a `None` result raises a
`TypeError`, modelled as an `Except.error`. -/
def collectMapped : List (Option (List String)) → List String → Except String (List String)
  | [], acc => .ok acc
  | none :: _, _ => .error "TypeError: NoneType object is not iterable"
  | some r :: rest, acc => collectMapped rest (r.foldl setAdd acc)

/-- Model of `map_urls`: gather `map_url` over all urls, then merge the
resulting sets; crashes with a `TypeError` at the first `None` result. -/
def map_urls (fetchRes : String → Option String) (anchors : String → List String)
    (urls : List String) : Except String (List String) :=
  collectMapped (urls.map (fun u => map_url (fetchRes u) anchors u)) []

/-- Outcome of the external rendering capability for one navigation: either
the network settled and the final content is materialized, or the idle wait
timed out with some partial content materialized and an exception message. -/
inductive NavOutcome where
  | settled : String → NavOutcome
  | timedOut : String → String → NavOutcome
deriving DecidableEq, Repr

/-- Model of `fetch_with_playwright`: when navigation settles it returns
`page.content()`; when the network-idle wait raises, the generic `except`
branch returns the string `Playwright failed: {e}` — the materialized
partial content is discarded. -/
def fetch_with_playwright : NavOutcome → String
  | .settled c => c
  | .timedOut _ msg => "Playwright failed: " ++ msg

/-- Model of `capture_high_detail_screenshot` (sc.py), returning the page
state the screenshot captures: the timeout branch is caught and the
screenshot is taken of whatever is materialized at that moment. -/
def capture_high_detail_screenshot : NavOutcome → String
  | .settled c => c
  | .timedOut mat _ => mat

/-- Classification result of `check_static_dynamic`. -/
inductive PageClass where
  | dynamic : PageClass
  | static : PageClass
deriving DecidableEq, Repr

/-- Model of `check_static_dynamic` given the two fetch results: the raw
fetch may be `None` (then `len(raw_html)` raises a `TypeError`), while
`fetch_with_playwright` always returns a string.  Dynamic iff the rendered
length exceeds the raw length by more than 500. -/
def check_static_dynamic (raw_html : Option String) (js_html : String) :
    Except String PageClass :=
  match raw_html with
  | none => .error "TypeError: object of type NoneType has no len"
  | some raw => .ok (if js_html.length > raw.length + 500 then .dynamic else .static)

/-- One output chunk of `export_results_to_jsonl`. -/
structure Chunk where
  chunk_id : Nat
  title : PyVal
  content : PyVal
  metadata : PyVal
deriving DecidableEq, Repr

/-- The chunk built from one result dict: `result.get("title", "")`,
`result.get("content", "")`, `result.get("metadata", empty dict)`. -/
def mkChunk (idx : Nat) (r : PyDict) : Chunk :=
  ⟨idx, dget r "title" (.vstr ""), dget r "content" (.vstr ""),
    dget r "metadata" (.vdict [])⟩

/-- The `for idx, result in enumerate(results)` loop, carrying the index. -/
def exportFrom (idx : Nat) : List PyDict → List Chunk
  | [] => []
  | r :: rs => mkChunk idx r :: exportFrom (idx + 1) rs

/-- Model of `export_results_to_jsonl`: one chunk per result, `chunk_id`
assigned by `enumerate` starting at 0. -/
def export_results_to_jsonl (results : List PyDict) : List Chunk :=
  exportFrom 0 results

/-- State of the `scrapeSite` worker pool: the FIFO queue of pending urls,
one slot per worker holding the url it is currently processing (if any), and
the shared results list, recorded as the source url of each appended record
in append (completion) order. -/
structure PoolState where
  queue : List String
  workers : List (Option String)
  results : List String
deriving DecidableEq, Repr

/-- A scheduler event: worker `i` dequeues the head of the queue (the
`await queue.get()` step, atomic in the event loop), or worker `i` finishes
its current url and appends the record (the `results.append` step). -/
inductive PoolEvent where
  | dequeue : Nat → PoolEvent
  | finish : Nat → PoolEvent
deriving DecidableEq, Repr

/-- Dequeue step: worker `i` is idle and the queue is non-empty, so it takes
the head url (the `await queue.get()` of the worker loop). -/
def stepDequeue (s : PoolState) (i : Nat) : Option PoolState :=
  match s.workers.get? i, s.queue with
  | some none, u :: rest => some ⟨rest, s.workers.set i (some u), s.results⟩
  | _, _ => none

/-- Finish step: worker `i` holds a url, appends its record to the shared
results and becomes idle (the `results.append` plus `task_done`). -/
def stepFinish (s : PoolState) (i : Nat) : Option PoolState :=
  match s.workers.get? i with
  | some (some u) => some ⟨s.queue, s.workers.set i none, s.results ++ [u]⟩
  | _ => none

/-- Small-step semantics of the worker pool: `none` when the event is not
enabled in the given state. -/
def step (s : PoolState) : PoolEvent → Option PoolState
  | .dequeue i => stepDequeue s i
  | .finish i => stepFinish s i

/-- Run a whole schedule of events from a state. -/
def runSchedule (s : PoolState) : List PoolEvent → Option PoolState
  | [] => some s
  | a :: rest =>
    match step s a with
    | some s2 => runSchedule s2 rest
    | none => none

/-- The state of `scrapeSite urls num_workers` after enqueuing all urls:
every worker idle, no results yet. -/
def initState (urls : List String) (numWorkers : Nat) : PoolState :=
  ⟨urls, List.replicate numWorkers none, []⟩

/-- Completion condition matched by `queue.join()` returning and the workers
being cancelled: the queue is drained and no worker holds an in-flight url. -/
def poolDone (s : PoolState) : Prop :=
  s.queue = [] ∧ ∀ w ∈ s.workers, w = none

/-- The multiset of urls held anywhere in the pool: still queued, in flight
at some worker, or already published. -/
def stock (s : PoolState) : Multiset String :=
  (s.queue : Multiset String) + (s.workers.filterMap id : Multiset String)
    + (s.results : Multiset String)

/-- Key selection for a meta element as the spec sentence words it: the
`name` attribute if present, else the `property` attribute; skipped only
when neither attribute is present.  Stated from the claim for comparison
with `scrape_meta`. -/
def metaKeyClaim (m : MetaTag) : Option String :=
  match m.name with
  | some n => some n
  | none => m.property

/-- Meta extraction as the claim words it, built on `metaKeyClaim`. -/
def scrape_meta_claim (metas : List MetaTag) : List (String × String) :=
  metas.foldl
    (fun acc m =>
      match metaKeyClaim m with
      | some k => dictSet acc k (pyStrip (m.content.getD ""))
      | none => acc)
    []

/-- A present-but-empty attribute yields no key. -/
def nonEmptyKey : Option String → Option String
  | none => none
  | some s => if s ≠ "" then some s else none

/-- Key selection as the code actually behaves (amended wording): the `name`
attribute when present and non-empty, else the `property` attribute when
present and non-empty; no key otherwise. -/
def metaKeyAmended (m : MetaTag) : Option String :=
  match nonEmptyKey m.name with
  | some k => some k
  | none => nonEmptyKey m.property

/-- Meta extraction under the amended wording. -/
def scrape_meta_amended (metas : List MetaTag) : List (String × String) :=
  metas.foldl
    (fun acc m =>
      match metaKeyAmended m with
      | some k => dictSet acc k (pyStrip (m.content.getD ""))
      | none => acc)
    []

/-- Meta element with a present-but-empty `name` attribute and a non-empty
`property` attribute, separating Python truthiness from attribute presence. -/
def mEmptyName : MetaTag := ⟨some "", some "og:type", some " article "⟩

/-- Document whose extractor output has a non-empty meta mapping. -/
def docMetaEx : Doc := ⟨some "T", [⟨some "description", none, some "d"⟩], [], some "B", "B"⟩

/-- Parsed form of a body holding an h2 before an h1 (the spec scenario
`<html><head><title> Hi <\x2ftitle><\x2fhead><body><h2>X<\x2fh2><h1>Y<\x2fh1><\x2fbody><\x2fhtml>`). -/
def docXY : Doc := ⟨some " Hi ", [], [⟨2, "X"⟩, ⟨1, "Y"⟩], some "X\nY", "Hi\nX\nY"⟩

/-- Raw html of the seed page of the frontier scenario, bearing anchors to
`/b` and `#frag`. -/
def htmlA : String := "<html><body><a href=/b>b</a><a href=#frag>frag</a></body></html>"

/-- Anchor oracle for the frontier scenario. -/
def anchorsA : String → List String :=
  fun h => if h = htmlA then ["/b", "#frag"] else []

/-- Parse oracle returning an empty document, for witnesses. -/
def parseNone : String → Doc := fun _ => ⟨none, [], [], none, ""⟩

/-- Fetch oracle in which every request fails (every exception branch of
`fetch` ends without a return value, so the coroutine yields `None`). -/
def fetchFail : String → Option String := fun _ => none

/-- Anchor oracle finding no links, for witnesses. -/
def noAnchors : String → List String := fun _ => []

/-- Ten admitted urls for the concurrency scenario. -/
def urls10 : List String :=
  ["https://example.test/0", "https://example.test/1", "https://example.test/2",
   "https://example.test/3", "https://example.test/4", "https://example.test/5",
   "https://example.test/6", "https://example.test/7", "https://example.test/8",
   "https://example.test/9"]

/-- One interleaving of three workers over `urls10` in which fetches finish
out of dequeue order. -/
def sched10 : List PoolEvent :=
  [.dequeue 0, .dequeue 1, .dequeue 2, .finish 1, .dequeue 1, .finish 2, .finish 0,
   .dequeue 0, .dequeue 2, .finish 0, .finish 1, .dequeue 0, .dequeue 1, .finish 2,
   .dequeue 2, .finish 0, .finish 1, .dequeue 0, .finish 2, .finish 0]

/-- The state `sched10` drives the pool into: drained, all workers idle, the
ten records published in completion order. -/
def sFinal10 : PoolState :=
  ⟨[], [none, none, none],
   ["https://example.test/1", "https://example.test/2", "https://example.test/0",
    "https://example.test/4", "https://example.test/3", "https://example.test/5",
    "https://example.test/6", "https://example.test/7", "https://example.test/8",
    "https://example.test/9"]⟩

/-! ### Helper lemmas about the sink -/

theorem exportFrom_length (rs : List PyDict) : ∀ idx, (exportFrom idx rs).length = rs.length := by
  induction rs with
  | nil => intro idx; rfl
  | cons r t ih => intro idx; simp [exportFrom, ih]

theorem exportFrom_map_chunk_id (rs : List PyDict) :
    ∀ idx, (exportFrom idx rs).map (fun c => c.chunk_id) = List.range' idx rs.length := by
  induction rs with
  | nil => intro idx; rfl
  | cons r t ih => intro idx; simp [exportFrom, mkChunk, ih, List.range']

theorem exportFrom_get? (rs : List PyDict) :
    ∀ (idx j : Nat), (exportFrom idx rs).get? j = (rs.get? j).map (fun r => mkChunk (idx + j) r) := by
  induction rs with
  | nil => intro idx j; simp [exportFrom]
  | cons r t ih =>
    intro idx j
    cases j with
    | zero => simp [exportFrom]
    | succ j =>
      have harith : idx + 1 + j = idx + (j + 1) := by omega
      simp only [exportFrom, List.get?]
      rw [ih (idx + 1) j, harith]

theorem lookup_extract_metadata (d : Doc) : (extract d).lookup "metadata" = none := rfl

theorem dget_extract_metadata (d : Doc) :
    dget (extract d) "metadata" (.vdict []) = .vdict [] := by
  unfold dget
  rw [lookup_extract_metadata]

theorem exportFrom_metadata_empty (ds : List Doc) :
    ∀ idx, (exportFrom idx (ds.map extract)).map (fun c => c.metadata)
      = List.replicate ds.length (PyVal.vdict []) := by
  induction ds with
  | nil => intro idx; rfl
  | cons d t ih =>
    intro idx
    simp only [List.map_cons, exportFrom, List.length_cons, List.replicate, mkChunk]
    rw [dget_extract_metadata, ih]

/-- C4: the sink assigns chunk ids by `enumerate`: for a run over `n`
records, the emitted `chunk_id` values are exactly `0, 1, ..., n-1` in
publish order, with no gaps or repeats. -/
theorem export_chunk_ids_exactly_range (results : List PyDict) :
    (export_results_to_jsonl results).map (fun c => c.chunk_id) = List.range results.length := by
  rw [export_results_to_jsonl, exportFrom_map_chunk_id, List.range_eq_range']

/-- C3: the sink reads the key `metadata`, which the extractor never writes
(it stores the meta mapping under `meta`), so every emitted chunk carries an
empty metadata mapping; at the concrete document `docMetaEx` the extractor
produced the non-empty mapping `description maps to d`, yet the emitted
chunk's metadata is empty while its title and content do match the record. -/
theorem export_drops_extracted_meta :
    (∀ ds : List Doc,
        (export_results_to_jsonl (ds.map extract)).map (fun c => c.metadata)
          = List.replicate ds.length (PyVal.vdict [])) ∧
    export_results_to_jsonl [extract docMetaEx]
        = [⟨0, .vstr "T", .vstr "B", .vdict []⟩] ∧
    dget (extract docMetaEx) "meta" (.vdict []) = .vdict [("description", "d")] := by
  refine ⟨fun ds => ?_, rfl, rfl⟩
  rw [export_results_to_jsonl, exportFrom_metadata_empty]

/-- C10: a url whose fetch yields no content still produces an output chunk:
`scrape_url` returns the empty record, the worker appends it, and the sink
emits a chunk with that position's `chunk_id`, empty title, empty content
and empty metadata; the number of chunks always equals the number of urls. -/
theorem failed_fetch_still_emits_chunk (fetchRes : String → Option String)
    (parse : String → Doc) (urls : List String) :
    (export_results_to_jsonl (urls.map (fun u => scrape_url (fetchRes u) parse))).length
        = urls.length ∧
    ∀ (i : Nat) (u : String), urls.get? i = some u → pyTruthyStr (fetchRes u) = false →
      (export_results_to_jsonl (urls.map (fun u => scrape_url (fetchRes u) parse))).get? i
          = some ⟨i, .vstr "", .vstr "", .vdict []⟩ := by
  constructor
  · rw [export_results_to_jsonl, exportFrom_length, List.length_map]
  · intro i u hi hf
    rw [export_results_to_jsonl, exportFrom_get?, List.get?_map, hi]
    simp [scrape_url, hf, mkChunk, dget]

/-- C10 witness: one dead url, every fetch failing. -/
theorem failed_fetch_still_emits_chunk_witness :
    (export_results_to_jsonl (["https://dead.example/"].map
        (fun u => scrape_url (fetchFail u) parseNone))).length = 1 ∧
    (export_results_to_jsonl (["https://dead.example/"].map
        (fun u => scrape_url (fetchFail u) parseNone))).get? 0
      = some ⟨0, .vstr "", .vstr "", .vdict []⟩ := by
  have h := failed_fetch_still_emits_chunk fetchFail parseNone ["https://dead.example/"]
  exact ⟨h.1, h.2 0 "https://dead.example/" rfl rfl⟩

/-- C9: with both fetch results present as text, `check_static_dynamic`
classifies the page dynamic exactly when the rendered content is more than
500 characters longer than the raw content, and static otherwise. -/
theorem check_static_dynamic_threshold (raw js : String) :
    (check_static_dynamic (some raw) js = .ok .dynamic ↔ raw.length + 500 < js.length) ∧
    (check_static_dynamic (some raw) js = .ok .static ↔ ¬ raw.length + 500 < js.length) := by
  unfold check_static_dynamic
  by_cases h : js.length > raw.length + 500 <;> simp [h]

/-- C5 counterexample: a render that times out before network idle does not
return the materialized partial content; the generic exception handler of
`fetch_with_playwright` returns the error-message string instead. -/
theorem fetch_with_playwright_timeout_cex :
    fetch_with_playwright (.timedOut "<div>loading</div>" "Timeout 30000ms exceeded")
        = "Playwright failed: Timeout 30000ms exceeded" ∧
    fetch_with_playwright (.timedOut "<div>loading</div>" "Timeout 30000ms exceeded")
        ≠ "<div>loading</div>" := ⟨rfl, by decide⟩

/-- C5 amended: on a timeout the pipeline renderer does not raise, but it
returns the error string built from the exception, discarding the
materialized content; only the screenshot utility of sc.py degrades by
capturing whatever is materialized at the moment of the timeout. -/
theorem render_timeout_behavior (mat msg : String) :
    fetch_with_playwright (.timedOut mat msg) = "Playwright failed: " ++ msg ∧
    capture_high_detail_screenshot (.timedOut mat msg) = mat := ⟨rfl, rfl⟩

/-- C2: evaluation of `map_url` on the seed scenario: the href values `/b`
and `#frag` are concatenated to the base url rather than resolved against
it, so the candidate set is not the claimed one: the frontier would admit
two new urls, neither of them `https://example.test/b`, and the fragment
link does not collapse into the already-visited seed. -/
theorem map_url_concatenation_scenario :
    map_url (some htmlA) anchorsA "https://example.test/a"
        = some ["https://example.test/a/b", "https://example.test/a#frag"] ∧
    (["https://example.test/a/b", "https://example.test/a#frag"].filter
        (fun u => u ∉ ["https://example.test/a"])).length = 2 ∧
    "https://example.test/b" ∉ ["https://example.test/a/b", "https://example.test/a#frag"] := by
  refine ⟨?_, by decide, by decide⟩
  rfl

/-! ### Heading extraction (claim C7) -/

theorem foldl_heading_texts (hs : List HeadingTag) :
    ∀ acc : List String,
      hs.foldl (fun a h => if h.text ≠ "" then a ++ [h.text] else a) acc
        = acc ++ (hs.map (fun h => h.text)).filter (fun t => t ≠ "") := by
  induction hs with
  | nil => intro acc; simp
  | cons h t ih =>
    intro acc
    by_cases hh : h.text = ""
    · rw [List.foldl_cons, if_neg (fun hne => hne hh), ih]
      simp [hh]
    · rw [List.foldl_cons, if_pos hh, ih (acc ++ [h.text])]
      simp [hh, List.append_assoc]

theorem foldl_heading_levels (d : Doc) (lvls : List Nat) :
    ∀ acc : List String,
      lvls.foldl
          (fun acc lvl =>
            (find_all_h d lvl).foldl (fun a h => if h.text ≠ "" then a ++ [h.text] else a) acc)
          acc
        = acc ++ lvls.flatMap
            (fun l => ((find_all_h d l).map (fun h => h.text)).filter (fun t => t ≠ "")) := by
  induction lvls with
  | nil => intro acc; simp
  | cons l ls ih =>
    intro acc
    rw [List.foldl_cons, foldl_heading_texts, ih]
    simp [List.append_assoc]

/-- C7: the extracted headings list is the level-by-level concatenation, for
levels 1 through 6, of the non-empty trimmed heading texts of each level in
document order; in particular an `h2` X before an `h1` Y yields Y before X. -/
theorem scrape_headings_level_by_level :
    (∀ d : Doc,
        scrape_headings d
          = [1, 2, 3, 4, 5, 6].flatMap
              (fun l => ((d.headings.filter (fun h => h.level == l)).map
                  (fun h => h.text)).filter (fun t => t ≠ ""))) ∧
    scrape_headings docXY = ["Y", "X"] := by
  constructor
  · intro d
    rw [scrape_headings, foldl_heading_levels]
    simp [find_all_h]
  · rfl

/-! ### Meta extraction (claims C8, C3) -/

theorem metaKeyAmended_eq_code (m : MetaTag) :
    metaKeyAmended m
      = (if pyTruthyStr (pyOr m.name m.property) then some ((pyOr m.name m.property).getD "")
         else none) := by
  cases hn : m.name with
  | none =>
    cases hp : m.property with
    | none => simp [metaKeyAmended, nonEmptyKey, pyOr, pyTruthyStr, hn, hp]
    | some p =>
      by_cases hpe : p = "" <;>
        simp [metaKeyAmended, nonEmptyKey, pyOr, pyTruthyStr, hn, hp, hpe]
  | some n =>
    cases hp : m.property with
    | none =>
      by_cases hne : n = "" <;>
        simp [metaKeyAmended, nonEmptyKey, pyOr, pyTruthyStr, hn, hp, hne]
    | some p =>
      by_cases hne : n = "" <;> by_cases hpe : p = "" <;>
        simp [metaKeyAmended, nonEmptyKey, pyOr, pyTruthyStr, hn, hp, hne, hpe]

theorem scrape_meta_eq_amended (metas : List MetaTag) :
    scrape_meta metas = scrape_meta_amended metas := by
  unfold scrape_meta scrape_meta_amended
  congr 1
  funext acc m
  rw [metaKeyAmended_eq_code]
  by_cases h : pyTruthyStr (pyOr m.name m.property) <;> simp [h]

theorem dictSet_cons_ne (p : String × String) (t : List (String × String)) (k v : String)
    (hp : p.1 ≠ k) : dictSet (p :: t) k v = p :: dictSet t k v := by
  by_cases ht : t.any (fun q => q.1 == k) <;> simp [dictSet, hp, ht]

theorem lookup_dictSet (d : List (String × String)) (k v : String) :
    (dictSet d k v).lookup k = some v := by
  induction d with
  | nil => simp [dictSet]
  | cons p t ih =>
    by_cases hp : p.1 = k
    · have : (p :: t).any (fun q => q.1 == k) = true := by simp [hp]
      simp [dictSet, this, hp]
    · rw [dictSet_cons_ne p t k v hp]
      have hk : (k == p.1) = false := by
        simp [hp]
        exact fun h => hp h.symm
      simp [List.lookup, hk, ih]

theorem scrape_meta_append (metas : List MetaTag) (m : MetaTag) :
    scrape_meta (metas ++ [m])
      = (let key := pyOr m.name m.property
         if pyTruthyStr key then
           dictSet (scrape_meta metas) (key.getD "") (pyStrip (m.content.getD ""))
         else scrape_meta metas) := by
  unfold scrape_meta
  rw [List.foldl_append]
  rfl

/-- C8 counterexample: a meta element with a present-but-empty `name`
attribute and `property` og:type: the code keys the entry by `og:type`
(Python truthiness skips the empty string), while the claim's wording keys
it by the present `name` attribute, i.e. by the empty string. -/
theorem scrape_meta_presence_cex :
    scrape_meta [mEmptyName] = [("og:type", "article")] ∧
    scrape_meta_claim [mEmptyName] = [("", "article")] ∧
    scrape_meta [mEmptyName] ≠ scrape_meta_claim [mEmptyName] := ⟨rfl, rfl, by decide⟩

/-- C8 amended: the key of a meta element is its `name` attribute when that
is present and non-empty, else its `property` attribute when that is present
and non-empty, and the element is skipped otherwise; the value is the
`content` attribute trimmed of surrounding whitespace, and on a key
collision the last-seen value wins. -/
theorem scrape_meta_amended_ok :
    (∀ metas : List MetaTag, scrape_meta metas = scrape_meta_amended metas) ∧
    (∀ (metas : List MetaTag) (m : MetaTag) (k : String),
        metaKeyAmended m = some k →
        (scrape_meta (metas ++ [m])).lookup k = some (pyStrip (m.content.getD ""))) := by
  refine ⟨scrape_meta_eq_amended, fun metas m k hk => ?_⟩
  rw [metaKeyAmended_eq_code] at hk
  by_cases h : pyTruthyStr (pyOr m.name m.property)
  · rw [scrape_meta_append]
    simp only [h, if_true]
    have : (pyOr m.name m.property).getD "" = k := by
      rw [if_pos h] at hk
      exact Option.some.inj hk
    rw [this, lookup_dictSet]
  · rw [if_neg h] at hk
    exact absurd hk (by simp)

/-- C8 witness: two meta elements named `a`; the later one wins and its
content is trimmed. -/
theorem scrape_meta_amended_ok_witness :
    (scrape_meta ([MetaTag.mk (some "a") none (some "1")]
        ++ [MetaTag.mk (some "a") none (some " 2 ")])).lookup "a" = some "2" := by
  have h := scrape_meta_amended_ok.2 [MetaTag.mk (some "a") none (some "1")]
    (MetaTag.mk (some "a") none (some " 2 ")) "a" rfl
  simpa using h

/-! ### Discovery-phase failure (claim C6) -/

theorem collectMapped_error_of_mem_none (l : List (Option (List String))) :
    ∀ acc, none ∈ l →
      collectMapped l acc = .error "TypeError: NoneType object is not iterable" := by
  induction l with
  | nil => intro acc h; simp at h
  | cons o t ih =>
    intro acc h
    cases o with
    | none => rfl
    | some r =>
      have ht : none ∈ t := by
        rcases List.mem_cons.mp h with h1 | h1
        · exact absurd h1 (by simp)
        · exact h1
      exact ih _ ht

theorem map_url_none_of_falsy (fetchRes : Option String) (anchors : String → List String)
    (url : String) (h : pyTruthyStr fetchRes = false) :
    map_url fetchRes anchors url = none := by
  simp [map_url, h]

/-- C6: a single url whose fetch fails (its coroutine returns None) makes
`map_urls` raise a TypeError while merging the gathered results, aborting
the whole discovery phase instead of recording the failure and moving on. -/
theorem single_url_failure_aborts_map_urls (fetchRes : String → Option String)
    (anchors : String → List String) (urls : List String) (u : String)
    (hu : u ∈ urls) (hf : pyTruthyStr (fetchRes u) = false) :
    map_urls fetchRes anchors urls = .error "TypeError: NoneType object is not iterable" := by
  unfold map_urls
  apply collectMapped_error_of_mem_none
  exact List.mem_map.mpr ⟨u, hu, map_url_none_of_falsy _ _ _ hf⟩

/-- C6 witness: one unreachable url aborts the phase. -/
theorem single_url_failure_aborts_map_urls_witness :
    map_urls fetchFail noAnchors ["https://bad.example/"]
      = .error "TypeError: NoneType object is not iterable" :=
  single_url_failure_aborts_map_urls fetchFail noAnchors ["https://bad.example/"]
    "https://bad.example/" (by simp) rfl

/-! ### Worker pool (claim C1) -/

theorem filterMap_set_busy (l : List (Option String)) :
    ∀ (i : Nat) (u : String), l.get? i = some none →
      ((l.set i (some u)).filterMap id).Perm (u :: l.filterMap id) := by
  induction l with
  | nil => intro i u h; simp at h
  | cons o t ih =>
    intro i u h
    cases i with
    | zero =>
      have ho : o = none := by simpa using h
      subst ho
      simp [List.set, List.filterMap_cons]
    | succ i =>
      have h' : t.get? i = some none := by simpa using h
      cases o with
      | none => simpa [List.set, List.filterMap_cons] using ih i u h'
      | some a =>
        simp only [List.set, List.filterMap_cons, id]
        exact ((ih i u h').cons a).trans (List.Perm.swap u a _)

theorem filterMap_set_idle (l : List (Option String)) :
    ∀ (i : Nat) (u : String), l.get? i = some (some u) →
      (u :: (l.set i none).filterMap id).Perm (l.filterMap id) := by
  induction l with
  | nil => intro i u h; simp at h
  | cons o t ih =>
    intro i u h
    cases i with
    | zero =>
      have ho : o = some u := by simpa using h
      subst ho
      simp [List.set, List.filterMap_cons]
    | succ i =>
      have h' : t.get? i = some (some u) := by simpa using h
      cases o with
      | none => simpa [List.set, List.filterMap_cons] using ih i u h'
      | some a =>
        simp only [List.set, List.filterMap_cons, id]
        exact (List.Perm.swap a u _).trans ((ih i u h').cons a)

theorem stepDequeue_stock (s s2 : PoolState) (i : Nat) (h : stepDequeue s i = some s2) :
    stock s2 = stock s := by
  cases hw : s.workers.get? i with
  | none =>
    unfold stepDequeue at h
    rw [hw] at h
    exact Option.noConfusion h
  | some w =>
    cases w with
    | some v =>
      unfold stepDequeue at h
      rw [hw] at h
      exact Option.noConfusion h
    | none =>
      cases hq : s.queue with
      | nil =>
        unfold stepDequeue at h
        rw [hw, hq] at h
        exact Option.noConfusion h
      | cons u rest =>
        unfold stepDequeue at h
        rw [hw, hq] at h
        have hs2 : s2 = ⟨rest, s.workers.set i (some u), s.results⟩ :=
          (Option.some.inj h).symm
        subst hs2
        have hperm := filterMap_set_busy s.workers i u hw
        unfold stock
        rw [hq, Multiset.coe_eq_coe.mpr hperm]
        simp

theorem stepFinish_stock (s s2 : PoolState) (i : Nat) (h : stepFinish s i = some s2) :
    stock s2 = stock s := by
  cases hw : s.workers.get? i with
  | none =>
    unfold stepFinish at h
    rw [hw] at h
    exact Option.noConfusion h
  | some w =>
    cases w with
    | none =>
      unfold stepFinish at h
      rw [hw] at h
      exact Option.noConfusion h
    | some u =>
      unfold stepFinish at h
      rw [hw] at h
      have hs2 : s2 = ⟨s.queue, s.workers.set i none, s.results ++ [u]⟩ :=
        (Option.some.inj h).symm
      subst hs2
      have hperm := filterMap_set_idle s.workers i u hw
      unfold stock
      rw [← Multiset.coe_eq_coe.mpr hperm]
      simp
      exact List.Perm.append_left s.queue
        (by rw [← List.append_assoc]
            exact List.perm_append_singleton u _)

theorem step_stock (s s2 : PoolState) (a : PoolEvent) (h : step s a = some s2) :
    stock s2 = stock s := by
  cases a with
  | dequeue i => exact stepDequeue_stock s s2 i h
  | finish i => exact stepFinish_stock s s2 i h

theorem runSchedule_stock (sched : List PoolEvent) :
    ∀ s s2, runSchedule s sched = some s2 → stock s2 = stock s := by
  induction sched with
  | nil =>
    intro s s2 h
    have : s = s2 := by simpa [runSchedule] using h
    rw [this]
  | cons a rest ih =>
    intro s s2 h
    unfold runSchedule at h
    cases hst : step s a with
    | none => rw [hst] at h; exact absurd h (by simp)
    | some s1 =>
      rw [hst] at h
      exact (ih s1 s2 h).trans (step_stock s s1 a hst)

theorem filterMap_id_eq_nil (l : List (Option String)) (h : ∀ w ∈ l, w = none) :
    l.filterMap id = [] := by
  induction l with
  | nil => rfl
  | cons o t ih =>
    have ho : o = none := h o (by simp)
    subst ho
    simpa [List.filterMap_cons] using ih (fun w hw => h w (by simp [hw]))

theorem stock_init (urls : List String) (k : Nat) :
    stock (initState urls k) = (urls : Multiset String) := by
  unfold stock initState
  rw [filterMap_id_eq_nil _ (fun w hw => List.eq_of_mem_replicate hw)]
  simp

/-- C1: whatever the interleaving of dequeues and completions, a completed
run of the worker pool publishes the admitted urls exactly: the published
sequence is a permutation of the queued urls, so with a duplicate-free
admitted set no url is published more than once, and the number of
published records equals the number of admitted urls. -/
theorem scrapeSite_publishes_each_url_exactly_once
    (urls : List String) (numWorkers : Nat) (sched : List PoolEvent) (s : PoolState)
    (hrun : runSchedule (initState urls numWorkers) sched = some s)
    (hq : s.queue = []) (hw : ∀ w ∈ s.workers, w = none) :
    s.results.Perm urls ∧ (urls.Nodup → ∀ u, s.results.count u ≤ 1)
      ∧ s.results.length = urls.length := by
  have hstock := runSchedule_stock sched _ _ hrun
  rw [stock_init] at hstock
  unfold stock at hstock
  rw [hq, filterMap_id_eq_nil s.workers hw] at hstock
  have hperm : s.results.Perm urls := by
    apply Multiset.coe_eq_coe.mp
    simpa using hstock
  refine ⟨hperm, fun hnd u => ?_, hperm.length_eq⟩
  rw [hperm.count_eq u]
  exact List.nodup_iff_count_le_one.mp hnd u

/-- C1 witness: ten admitted urls drained by three workers along a schedule
whose fetches complete out of dequeue order. -/
theorem scrapeSite_publishes_each_url_exactly_once_witness :
    sFinal10.results.Perm urls10 ∧ (urls10.Nodup → ∀ u, sFinal10.results.count u ≤ 1)
      ∧ sFinal10.results.length = urls10.length :=
  scrapeSite_publishes_each_url_exactly_once urls10 3 sched10 sFinal10 (by decide)
    rfl (by decide)
